import Mathlib

/-!
Verification of the SmartCare booking backend (src/backend/main.py).

The embedding models the booking window policy, the slot catalog, and the
booking ledger operations (create, list-by-phone, cancel, calendar load)
as executable Lean definitions.  Python `datetime.date` values are modelled
by the `Date` structure compared lexicographically; SQL text columns are
Lean `String`s, with all string manipulation done structurally over the
underlying character list so that every definition evaluates by `decide`.
The SQLite table of appointments is modelled as a list in insertion (rowid)
order together with the AUTOINCREMENT counter.
-/

namespace SmartCare

/-! ### Booking rule constants (main.py lines 25-29) -/

def ALLOWED_MONTHS_AHEAD : Nat := 3

def WORK_START_HOUR : Nat := 9

def WORK_END_HOUR : Nat := 17

def SLOT_MINUTES : Nat := 30

/-! ### Dates

A calendar date as in Python `datetime.date`; Python compares dates
lexicographically by (year, month, day). -/

structure Date where
  year : Nat
  month : Nat
  day : Nat
deriving DecidableEq

def Date.Lt (a b : Date) : Prop :=
  a.year < b.year ∨ (a.year = b.year ∧
    (a.month < b.month ∨ (a.month = b.month ∧ a.day < b.day)))

def Date.Le (a b : Date) : Prop :=
  a.year < b.year ∨ (a.year = b.year ∧
    (a.month < b.month ∨ (a.month = b.month ∧ a.day ≤ b.day)))

instance : LT Date := ⟨Date.Lt⟩

instance : LE Date := ⟨Date.Le⟩

instance (a b : Date) : Decidable (a < b) :=
  decidable_of_iff (a.year < b.year ∨ (a.year = b.year ∧
    (a.month < b.month ∨ (a.month = b.month ∧ a.day < b.day)))) Iff.rfl

instance (a b : Date) : Decidable (a ≤ b) :=
  decidable_of_iff (a.year < b.year ∨ (a.year = b.year ∧
    (a.month < b.month ∨ (a.month = b.month ∧ a.day ≤ b.day)))) Iff.rfl

/-- main.py line 43: `d.replace(day=1)`. -/
def first_day_of_month (d : Date) : Date := { d with day := 1 }

/-- main.py lines 46-49: month arithmetic on the first of the month. -/
def add_months (d : Date) (months : Nat) : Date :=
  { year := d.year + (d.month - 1 + months) / 12
    month := (d.month - 1 + months) % 12 + 1
    day := 1 }

/-- Gregorian leap-year rule, as used by Python `datetime.date` validity. -/
def isLeapYear (y : Nat) : Bool :=
  y % 4 == 0 && (y % 100 != 0 || y % 400 == 0)

def daysInMonth (y m : Nat) : Nat :=
  if m == 2 then (if isLeapYear y then 29 else 28)
  else if m == 4 || m == 6 || m == 9 || m == 11 then 30
  else 31

/-! ### String plumbing

The Python code works on `str` values ("YYYY-MM-DD", "HH:MM", phone
numbers).  We keep the `String` type but implement every operation
structurally on the character list, mirroring what the Python/SQLite
runtime does byte-wise on these ASCII strings. -/

def isAsciiDigit (c : Char) : Bool := 48 ≤ c.toNat && c.toNat ≤ 57

def digitsValAux (acc : Nat) : List Char → Nat
  | [] => acc
  | c :: cs => digitsValAux (acc * 10 + (c.toNat - 48)) cs

/-- Numeric value of a nonempty all-digit character run. -/
def parseNatDigits (cs : List Char) : Option Nat :=
  if !cs.isEmpty && cs.all isAsciiDigit then some (digitsValAux 0 cs) else none

def splitOnDashAux (cur : List Char) : List Char → List (List Char)
  | [] => [cur.reverse]
  | c :: cs =>
    if c == '-' then cur.reverse :: splitOnDashAux [] cs
    else splitOnDashAux (c :: cur) cs

def splitOnDash (cs : List Char) : List (List Char) := splitOnDashAux [] cs

/-- Python `str.strip()` on the ASCII whitespace that can occur in these
payloads. -/
def isStripChar (c : Char) : Bool :=
  c.toNat == 32 || c.toNat == 9 || c.toNat == 10 ||
    c.toNat == 13 || c.toNat == 11 || c.toNat == 12

def strip (s : String) : String :=
  String.mk (((s.data.dropWhile isStripChar).reverse.dropWhile isStripChar).reverse)

/-- Byte-wise (SQLite BINARY collation) strict comparison of text values. -/
def strLtB : List Char → List Char → Bool
  | [], [] => false
  | [], _ :: _ => true
  | _ :: _, [] => false
  | a :: as, b :: bs =>
    if a.toNat < b.toNat then true
    else if b.toNat < a.toNat then false
    else strLtB as bs

/-- main.py line 56: `datetime.strptime(ym, "%Y-%m").date().replace(day=1)`;
`none` models the `ValueError` branch. -/
def parseYM (s : String) : Option (Nat × Nat) :=
  match splitOnDash s.data with
  | [ys, ms] =>
    match parseNatDigits ys, parseNatDigits ms with
    | some y, some m =>
      if ys.length ≤ 4 ∧ ms.length ≤ 2 ∧ 1 ≤ y ∧ y ≤ 9999 ∧ 1 ≤ m ∧ m ≤ 12 then
        some (y, m)
      else none
    | _, _ => none
  | _ => none

/-- main.py line 66: `datetime.strptime(ds, "%Y-%m-%d").date()`; `none`
models the `ValueError` branch (bad shape or out-of-range component). -/
def parseDate (s : String) : Option Date :=
  match splitOnDash s.data with
  | [ys, ms, ds] =>
    match parseNatDigits ys, parseNatDigits ms, parseNatDigits ds with
    | some y, some m, some d =>
      if ys.length ≤ 4 ∧ ms.length ≤ 2 ∧ ds.length ≤ 2 ∧
          1 ≤ y ∧ y ≤ 9999 ∧ 1 ≤ m ∧ m ≤ 12 ∧ 1 ≤ d ∧ d ≤ daysInMonth y m then
        some ⟨y, m, d⟩
      else none
    | _, _, _ => none
  | _ => none

/-! ### Errors -/

/-- A FastAPI `HTTPException(status_code, detail)`. -/
structure HTTPException where
  status_code : Nat
  detail : String
deriving DecidableEq

instance {ε α : Type} [DecidableEq ε] [DecidableEq α] : DecidableEq (Except ε α) :=
  fun a b =>
    match a, b with
    | .error e, .error f =>
      if h : e = f then .isTrue (by simp [h]) else .isFalse (by simp [h])
    | .error _, .ok _ => .isFalse (by simp)
    | .ok _, .error _ => .isFalse (by simp)
    | .ok x, .ok y =>
      if h : x = y then .isTrue (by simp [h]) else .isFalse (by simp [h])

/-! ### Window policy (main.py lines 51-76) -/

/-- main.py lines 51-59.  The argument `today` is the injected clock value
(`date.today()`). -/
def is_month_allowed (today : Date) (ym : String) : Except HTTPException Bool :=
  let cur := first_day_of_month today
  let max_month := add_months cur ALLOWED_MONTHS_AHEAD
  match parseYM ym with
  | none => .error ⟨400, "Invalid month format. Use YYYY-MM"⟩
  | some (y, m) =>
    let req : Date := ⟨y, m, 1⟩
    .ok (decide (cur ≤ req ∧ req ≤ max_month))

/-- main.py lines 61-76. -/
def is_date_allowed (today : Date) (ds : String) : Except HTTPException Bool :=
  let cur := first_day_of_month today
  let max_month := add_months cur ALLOWED_MONTHS_AHEAD
  match parseDate ds with
  | none => .error ⟨400, "Invalid date format. Use YYYY-MM-DD"⟩
  | some req =>
    if req < today then .ok false
    else if req < cur then .ok false
    else if add_months max_month 1 ≤ req then .ok false
    else .ok true

/-! ### Slot catalog (main.py lines 31-41) -/

def digitChar (n : Nat) : Char := Char.ofNat (48 + n)

/-- Two-digit zero-padded decimal, as `strftime` zero-pads `%H`/`%M`. -/
def fmt2 (n : Nat) : String := String.mk [digitChar (n / 10), digitChar (n % 10)]

/-- Models `t.strftime("%H:%M")` for a time-of-day given in minutes since midnight. -/
def fmtHM (t : Nat) : String := fmt2 (t / 60) ++ ":" ++ fmt2 (t % 60)

/-- The `while t < end` loop of `generate_slots`, time in minutes since
midnight; the first argument is fuel bounding the number of iterations
(the loop advances by `SLOT_MINUTES > 0` each step, so `end` minutes of
fuel always suffice). -/
def generate_slots_aux : Nat → Nat → Nat → List String
  | 0, _, _ => []
  | fuel + 1, t, endT =>
    if t < endT then fmtHM t :: generate_slots_aux fuel (t + SLOT_MINUTES) endT
    else []

/-- main.py lines 31-38. -/
def generate_slots : List String :=
  generate_slots_aux (WORK_END_HOUR * 60) (WORK_START_HOUR * 60) (WORK_END_HOUR * 60)

def ALL_SLOTS : List String := generate_slots

def DAILY_CAPACITY : Nat := ALL_SLOTS.length

/-! ### Data model (main.py lines 92-128, 176-197) -/

structure Service where
  id : Nat
  name : String
  duration_minutes : Nat
deriving DecidableEq

/-- main.py lines 118-125. -/
def seeded_services : List Service :=
  [⟨1, "General Consultation", 30⟩, ⟨2, "Lab Services", 30⟩,
   ⟨3, "Follow-up Consultation", 30⟩]

/-- A row of the `appointments` table. -/
structure Appt where
  id : Nat
  patient_name : String
  phone : String
  situation_type : String
  service_id : Nat
  appt_date : String
  appt_time : String
  status : String
  created_at : String
deriving DecidableEq

/-- The SQLite database: `appointments` rows in rowid (insertion) order plus
the AUTOINCREMENT counter, and the seeded `services` table. -/
structure DB where
  services : List Service
  appts : List Appt
  nextId : Nat
deriving DecidableEq

def initDB : DB := ⟨seeded_services, [], 1⟩

structure AppointmentCreate where
  patient_name : String
  phone : String
  situation_type : String
  service_id : Nat
  appt_date : String
  appt_time : String
deriving DecidableEq

structure AppointmentOut where
  id : Nat
  patient_name : String
  phone : String
  situation_type : String
  service_id : Nat
  service_name : String
  appt_date : String
  appt_time : String
  status : String
  created_at : String
deriving DecidableEq

/-! ### Queries (main.py lines 134-171) -/

/-- main.py lines 134-142. -/
def get_service (st : DB) (service_id : Nat) : Except HTTPException Service :=
  match st.services.find? (fun s => s.id == service_id) with
  | none => .error ⟨400, "Invalid service_id"⟩
  | some s => .ok s

/-- Row predicate of the WHERE clause in `count_booked_for_day`. -/
def isBookedFor (service_id : Nat) (d : String) (a : Appt) : Bool :=
  a.status == "booked" && a.service_id == service_id && a.appt_date == d

/-- main.py lines 144-156. -/
def count_booked_for_day (st : DB) (service_id : Nat) (d : String) : Nat :=
  (st.appts.filter (isBookedFor service_id d)).length

/-- Row predicate of the WHERE clause of the double-booking check
(main.py lines 306-312). -/
def isBookedSlot (service_id : Nat) (d t : String) (a : Appt) : Bool :=
  a.status == "booked" && a.service_id == service_id &&
    a.appt_date == d && a.appt_time == t

/-- The `COUNT(*)` of the double-booking check in `create_appointment`. -/
def count_booked_slot (st : DB) (service_id : Nat) (d t : String) : Nat :=
  (st.appts.filter (isBookedSlot service_id d t)).length

/-! ### Booking ledger (main.py lines 288-392) -/

/-- The row inserted by `create_appointment` (main.py lines 318-329). -/
def new_appt (st : DB) (p : AppointmentCreate) (now : String) : Appt :=
  { id := st.nextId
    patient_name := strip p.patient_name
    phone := strip p.phone
    situation_type := p.situation_type
    service_id := p.service_id
    appt_date := p.appt_date
    appt_time := p.appt_time
    status := "booked"
    created_at := now }

/-- The response shape shared by create (main.py lines 334-345) and the
SELECT-with-JOIN of `list_appointments` (lines 352-373). -/
def mk_out (a : Appt) (service_name : String) : AppointmentOut :=
  { id := a.id
    patient_name := a.patient_name
    phone := a.phone
    situation_type := a.situation_type
    service_id := a.service_id
    service_name := service_name
    appt_date := a.appt_date
    appt_time := a.appt_time
    status := a.status
    created_at := a.created_at }

/-- main.py lines 288-345.  `today` models `date.today()` and `now` models
`datetime.now().isoformat(timespec="seconds")`. -/
def create_appointment (today : Date) (now : String) (st : DB)
    (p : AppointmentCreate) : Except HTTPException (AppointmentOut × DB) :=
  match is_date_allowed today p.appt_date with
  | .error e => .error e
  | .ok false => .error ⟨400, "Date not allowed. Use today or within next 3 months."⟩
  | .ok true =>
    match get_service st p.service_id with
    | .error e => .error e
    | .ok service =>
      if p.appt_time ∉ ALL_SLOTS then .error ⟨400, "Invalid time slot"⟩
      else if DAILY_CAPACITY ≤ count_booked_for_day st p.service_id p.appt_date then
        .error ⟨409, "This day is FULL for the selected service"⟩
      else if 0 < count_booked_slot st p.service_id p.appt_date p.appt_time then
        .error ⟨409, "This time slot is already booked"⟩
      else
        .ok (mk_out (new_appt st p now) service.name,
          { st with appts := st.appts ++ [new_appt st p now], nextId := st.nextId + 1 })

/-- Models `ORDER BY a.appt_date DESC, a.appt_time DESC`: row `a` may precede
row `b` iff the (date, time) key of `b` is byte-wise at most that of `a`. -/
def ListedBefore (a b : AppointmentOut) : Prop :=
  (strLtB b.appt_date.data a.appt_date.data ||
    (b.appt_date == a.appt_date && !strLtB a.appt_time.data b.appt_time.data)) = true

instance : DecidableRel ListedBefore := fun _ _ => instDecidableEqBool _ _

/-- main.py lines 347-373: filter on the trimmed phone, inner-join the
service name, order by date then time descending. -/
def list_appointments (st : DB) (phone : String) : List AppointmentOut :=
  let ph := strip phone
  List.insertionSort ListedBefore
    ((st.appts.filter (fun a => a.phone == ph)).filterMap
      (fun a => (st.services.find? (fun s => s.id == a.service_id)).map
        (fun s => mk_out a s.name)))

/-- The UPDATE statement setting status to "cancelled" for the given id
(main.py line 389). -/
def cancel_update (st : DB) (appt_id : Nat) : List Appt :=
  st.appts.map (fun a => if a.id == appt_id then { a with status := "cancelled" } else a)

/-- main.py lines 375-392. -/
def cancel_appointment (st : DB) (appt_id : Nat) : Except HTTPException (Bool × DB) :=
  match st.appts.find? (fun a => a.id == appt_id) with
  | none => .error ⟨404, "Appointment not found"⟩
  | some row =>
    if row.status == "cancelled" then .ok (true, st)
    else .ok (true, { st with appts := cancel_update st appt_id })

/-! ### Calendar load (main.py lines 226-286) -/

/-- main.py lines 256-261. -/
def level (c : Nat) : String :=
  if c ≤ 5 then "Low" else if c ≤ 12 then "Medium" else "High"

def fmt4 (n : Nat) : String :=
  String.mk [digitChar (n / 1000 % 10), digitChar (n / 100 % 10),
    digitChar (n / 10 % 10), digitChar (n % 10)]

/-- Models `d.strftime("%Y-%m-%d")`. -/
def dateToStr (d : Date) : String :=
  fmt4 d.year ++ "-" ++ fmt2 d.month ++ "-" ++ fmt2 d.day

structure DayLoad where
  date : String
  count : Nat
  level : String
  is_full : Bool
  disabled : Bool
deriving DecidableEq

structure CalendarOut where
  month : String
  service_id : Option Nat
  daily_capacity : Nat
  days : List DayLoad
deriving DecidableEq

instance : Inhabited CalendarOut := ⟨⟨"", none, 0, []⟩⟩

/-- The days enumerated by the `while d < next_month` loop (main.py lines
263-284): the day `d` of the requested month, advanced by one day per
iteration, covers exactly days 1 .. daysInMonth of that month. -/
def month_days (y m : Nat) : List Date :=
  (List.range (daysInMonth y m)).map (fun k => ⟨y, m, k + 1⟩)

/-- Models `counts.get(ds, 0)` (main.py line 268): the per-day GROUP BY count is
the number of booked rows of the selected service on that date string, and
the dict stays empty when no service is selected. -/
def day_count (st : DB) (service_id : Option Nat) (ds : String) : Nat :=
  match service_id with
  | none => 0
  | some sid => count_booked_for_day st sid ds

/-- One record of the `days` array (main.py lines 267-283). -/
def day_record (today : Date) (st : DB) (service_id : Option Nat) (d : Date) : DayLoad :=
  let ds := dateToStr d
  let c := day_count st service_id ds
  let is_full := service_id.isSome && decide (DAILY_CAPACITY ≤ c)
  let is_past := decide (d < today)
  { date := ds, count := c, level := level c, is_full := is_full,
    disabled := is_past || is_full }

/-- main.py lines 226-286. -/
def calendar_load (today : Date) (st : DB) (month : String)
    (service_id : Option Nat) : Except HTTPException CalendarOut :=
  match is_month_allowed today month with
  | .error e => .error e
  | .ok false => .error ⟨400, "Month not allowed. Only current to next 3 months."⟩
  | .ok true =>
    match parseYM month with
    | none => .error ⟨400, "Invalid month format. Use YYYY-MM"⟩
    | some (y, m) =>
      match service_id with
      | none =>
        .ok ⟨month, none, DAILY_CAPACITY, (month_days y m).map (day_record today st none)⟩
      | some sid =>
        match get_service st sid with
        | .error e => .error e
        | .ok _ =>
          .ok ⟨month, some sid, DAILY_CAPACITY,
            (month_days y m).map (day_record today st (some sid))⟩


theorem date_lt_iff (a b : Date) : a < b ↔ Date.Lt a b := Iff.rfl

theorem date_le_iff (a b : Date) : a ≤ b ↔ Date.Le a b := Iff.rfl

def chainStrLtB : List String → Bool
  | [] => true
  | [_] => true
  | a :: b :: rest => strLtB a.data b.data && chainStrLtB (b :: rest)

/-- Claim C6: the generated slot catalog with start hour 09:00, end hour
17:00 and 30-minute granularity has exactly 16 time-of-day labels, first
"09:00", last "16:30", strictly increasing (byte-wise, which on these
fixed-width labels is time order), excludes the end boundary "17:00", and
`DAILY_CAPACITY` is the length of this sequence. -/
theorem c6_slot_catalog :
    generate_slots.length = 16 ∧
    generate_slots.head? = some "09:00" ∧
    generate_slots.getLast? = some "16:30" ∧
    chainStrLtB generate_slots = true ∧
    "17:00" ∉ generate_slots ∧
    DAILY_CAPACITY = generate_slots.length := by decide

/-- Claim C2: for every date string that parses (well-formed "YYYY-MM-DD")
and a well-formed clock date, `is_date_allowed` returns true exactly when
today ≤ d < first day of month (current month start + (N+1)) with N =
`ALLOWED_MONTHS_AHEAD` = 3; so today itself is allowed and anything before
today is rejected. -/
theorem c2_date_window (today req : Date) (ds : String)
    (hm1 : 1 ≤ today.month) (hm2 : today.month ≤ 12) (hd : 1 ≤ today.day)
    (hp : parseDate ds = some req) :
    ∃ b, is_date_allowed today ds = .ok b ∧
      (b = true ↔ (today ≤ req ∧
        req < first_day_of_month
          (add_months (first_day_of_month today) (ALLOWED_MONTHS_AHEAD + 1)))) := by
  obtain ⟨ty, tm, td⟩ := today
  obtain ⟨ry, rm, rd⟩ := req
  dsimp only at hm1 hm2 hd
  simp only [is_date_allowed, hp]
  by_cases h1 : (⟨ry, rm, rd⟩ : Date) < ⟨ty, tm, td⟩
  · rw [if_pos h1]
    refine ⟨false, rfl, iff_of_false (by simp) ?_⟩
    simp only [date_lt_iff, date_le_iff, Date.Lt, Date.Le, first_day_of_month,
      add_months, ALLOWED_MONTHS_AHEAD] at h1 ⊢
    omega
  · rw [if_neg h1]
    by_cases h2 : (⟨ry, rm, rd⟩ : Date) < first_day_of_month ⟨ty, tm, td⟩
    · rw [if_pos h2]
      refine ⟨false, rfl, iff_of_false (by simp) ?_⟩
      simp only [date_lt_iff, date_le_iff, Date.Lt, Date.Le, first_day_of_month,
        add_months, ALLOWED_MONTHS_AHEAD] at h1 h2 ⊢
      omega
    · rw [if_neg h2]
      by_cases h3 : add_months (add_months (first_day_of_month ⟨ty, tm, td⟩)
          ALLOWED_MONTHS_AHEAD) 1 ≤ ⟨ry, rm, rd⟩
      · rw [if_pos h3]
        refine ⟨false, rfl, iff_of_false (by simp) ?_⟩
        simp only [date_lt_iff, date_le_iff, Date.Lt, Date.Le, first_day_of_month,
          add_months, ALLOWED_MONTHS_AHEAD] at h1 h2 h3 ⊢
        omega
      · rw [if_neg h3]
        refine ⟨true, rfl, iff_of_true rfl ?_⟩
        simp only [date_lt_iff, date_le_iff, Date.Lt, Date.Le, first_day_of_month,
          add_months, ALLOWED_MONTHS_AHEAD] at h1 h2 h3 hm1 hm2 hd ⊢
        omega

/-- Claim C2 witness: concrete instance, clock 2026-10-12, request
2026-11-05. -/
theorem c2_date_window_witness :
    ∃ b, is_date_allowed ⟨2026, 10, 12⟩ "2026-11-05" = .ok b ∧
      (b = true ↔ ((⟨2026, 10, 12⟩ : Date) ≤ ⟨2026, 11, 5⟩ ∧
        (⟨2026, 11, 5⟩ : Date) < first_day_of_month
          (add_months (first_day_of_month ⟨2026, 10, 12⟩) (ALLOWED_MONTHS_AHEAD + 1)))) :=
  c2_date_window ⟨2026, 10, 12⟩ ⟨2026, 11, 5⟩ "2026-11-05"
    (by decide) (by decide) (by decide) (by decide)

/-- Claim C7: `is_month_allowed` fails with the invalid-format error on a
malformed year-month string, and on a well-formed one returns true exactly
when the month first day lies in [current month start, current month
start + N] with N = 3; a disallowed month makes `calendar_load` fail with
the out-of-range error. -/
theorem c7_month_window (today : Date) (st : DB) (sid : Option Nat) (ym : String) :
    (parseYM ym = none →
      is_month_allowed today ym = .error ⟨400, "Invalid month format. Use YYYY-MM"⟩) ∧
    (∀ y m, parseYM ym = some (y, m) →
      is_month_allowed today ym =
        .ok (decide (first_day_of_month today ≤ ⟨y, m, 1⟩ ∧
          (⟨y, m, 1⟩ : Date) ≤ add_months (first_day_of_month today) ALLOWED_MONTHS_AHEAD))) ∧
    (is_month_allowed today ym = .ok false →
      calendar_load today st ym sid =
        .error ⟨400, "Month not allowed. Only current to next 3 months."⟩) := by
  refine ⟨?_, ?_, ?_⟩
  · intro h
    simp [is_month_allowed, h]
  · intro y m h
    simp [is_month_allowed, h]
  · intro h
    simp [calendar_load, h]

/-- Claim C7 witness: with clock 2026-10-12 (current month 2026-10), month
current+4 = 2027-02 is rejected, current+3 = 2027-01 is allowed, and a
malformed string gets the invalid-format error; the rejected month makes
`calendar_load` fail with the out-of-range error. -/
theorem c7_month_window_witness :
    is_month_allowed ⟨2026, 10, 12⟩ "2027-02" = .ok false ∧
    is_month_allowed ⟨2026, 10, 12⟩ "2027-01" = .ok true ∧
    is_month_allowed ⟨2026, 10, 12⟩ "2027-xx" =
      .error ⟨400, "Invalid month format. Use YYYY-MM"⟩ ∧
    calendar_load ⟨2026, 10, 12⟩ initDB "2027-02" none =
      .error ⟨400, "Month not allowed. Only current to next 3 months."⟩ := by
  have h2 := (c7_month_window ⟨2026, 10, 12⟩ initDB none "2027-02").2.1 2027 2 (by decide)
  have h1 := (c7_month_window ⟨2026, 10, 12⟩ initDB none "2027-01").2.1 2027 1 (by decide)
  have h0 := (c7_month_window ⟨2026, 10, 12⟩ initDB none "2027-xx").1 (by decide)
  have hc := (c7_month_window ⟨2026, 10, 12⟩ initDB none "2027-02").2.2
  refine ⟨h2.trans (by decide), h1.trans (by decide), h0, hc (h2.trans (by decide))⟩

theorem strLtB_irrefl : ∀ x, strLtB x x = false := by
  intro x
  induction x with
  | nil => simp [strLtB]
  | cons a as ih => simp [strLtB, ih]

theorem strLtB_trans : ∀ x y z, strLtB x y = true → strLtB y z = true →
    strLtB x z = true := by
  intro x
  induction x with
  | nil =>
    intro y z hxy hyz
    cases y with
    | nil => simp [strLtB] at hxy
    | cons b bs =>
      cases z with
      | nil => simp [strLtB] at hyz
      | cons c cs => simp [strLtB]
  | cons a as ih =>
    intro y z hxy hyz
    cases y with
    | nil => simp [strLtB] at hxy
    | cons b bs =>
      cases z with
      | nil => simp [strLtB] at hyz
      | cons c cs =>
        simp only [strLtB] at hxy hyz ⊢
        split_ifs at hxy hyz ⊢ <;> first | rfl | omega | exact ih bs cs hxy hyz

theorem strLtB_connex : ∀ x y, strLtB x y = false → strLtB y x = false → x = y := by
  intro x
  induction x with
  | nil =>
    intro y hxy _
    cases y with
    | nil => rfl
    | cons b bs => simp [strLtB] at hxy
  | cons a as ih =>
    intro y hxy hyx
    cases y with
    | nil => simp [strLtB] at hyx
    | cons b bs =>
      simp only [strLtB] at hxy hyx
      split_ifs at hxy hyx
      have htn : a.toNat = b.toNat := by omega
      have hab : a = b :=
        Char.eq_of_val_eq (UInt32.eq_of_toBitVec_eq (BitVec.eq_of_toNat_eq htn))
      rw [hab, ih bs hxy hyx]

theorem strLtB_asymm : ∀ x y, strLtB x y = true → strLtB y x = false := by
  intro x y hxy
  cases hyx : strLtB y x
  · rfl
  · cases hxx : strLtB x x
    · exact absurd (strLtB_trans x y x hxy hyx) (by simp [strLtB_irrefl])
    · exact absurd hxx (by simp [strLtB_irrefl])

instance : IsTotal AppointmentOut ListedBefore := by
  constructor
  intro a b
  unfold ListedBefore
  cases h1 : strLtB b.appt_date.data a.appt_date.data
  · cases h2 : strLtB a.appt_date.data b.appt_date.data
    · have hd : a.appt_date = b.appt_date := by
        have := strLtB_connex _ _ h2 h1
        exact String.ext this
      cases h3 : strLtB a.appt_time.data b.appt_time.data
      · left
        simp [hd, h3]
      · right
        simp [hd, strLtB_asymm _ _ h3]
    · right
      simp [h2]
  · left
    simp [h1]

instance : IsTrans AppointmentOut ListedBefore := by
  constructor
  intro a b c hab hbc
  unfold ListedBefore at hab hbc ⊢
  simp only [Bool.or_eq_true, Bool.and_eq_true, beq_iff_eq, Bool.not_eq_true'] at hab hbc ⊢
  rcases hab with h1 | ⟨h1, h1t⟩
  · rcases hbc with h2 | ⟨h2, h2t⟩
    · exact Or.inl (strLtB_trans _ _ _ h2 h1)
    · exact Or.inl (by rw [h2]; exact h1)
  · rcases hbc with h2 | ⟨h2, h2t⟩
    · exact Or.inl (by rw [← h1]; exact h2)
    · refine Or.inr ⟨h2.trans h1, ?_⟩
      cases h3 : strLtB a.appt_time.data c.appt_time.data
      · rfl
      · cases h4 : strLtB c.appt_time.data b.appt_time.data
        · have hbc2 := strLtB_connex _ _ h2t h4
          rw [← hbc2] at h3
          rw [h1t] at h3
          exact h3.symm
        · have hcon := strLtB_trans _ _ _ h3 h4
          rw [h1t] at hcon
          exact hcon.symm


theorem create_ok_elim {today : Date} {now : String} {st : DB}
    {p : AppointmentCreate} {out : AppointmentOut} {st' : DB}
    (h : create_appointment today now st p = .ok (out, st')) :
    ∃ service, get_service st p.service_id = .ok service ∧
      out = mk_out (new_appt st p now) service.name ∧
      st' = { st with appts := st.appts ++ [new_appt st p now], nextId := st.nextId + 1 } ∧
      is_date_allowed today p.appt_date = .ok true ∧
      p.appt_time ∈ ALL_SLOTS ∧
      count_booked_for_day st p.service_id p.appt_date < DAILY_CAPACITY ∧
      count_booked_slot st p.service_id p.appt_date p.appt_time = 0 := by
  unfold create_appointment at h
  cases hda : is_date_allowed today p.appt_date with
  | error e => rw [hda] at h; cases h
  | ok b =>
    rw [hda] at h
    cases b with
    | false => cases h
    | true =>
      cases hsv : get_service st p.service_id with
      | error e => rw [hsv] at h; cases h
      | ok service =>
        rw [hsv] at h
        dsimp only at h
        by_cases hts : p.appt_time ∈ ALL_SLOTS
        · rw [if_neg (not_not_intro hts)] at h
          by_cases hcap : DAILY_CAPACITY ≤ count_booked_for_day st p.service_id p.appt_date
          · rw [if_pos hcap] at h; cases h
          · rw [if_neg hcap] at h
            by_cases hcf : 0 < count_booked_slot st p.service_id p.appt_date p.appt_time
            · rw [if_pos hcf] at h; cases h
            · rw [if_neg hcf] at h
              injection h with h'
              injection h' with h1 h2
              exact ⟨service, rfl, h1.symm, h2.symm, rfl, hts, by omega, by omega⟩
        · rw [if_pos hts] at h; cases h

theorem cancel_ok_elim {st : DB} {i : Nat} {r : Bool} {st' : DB}
    (h : cancel_appointment st i = .ok (r, st')) :
    r = true ∧
      ((st' = st ∧ ∃ row, st.appts.find? (fun a => a.id == i) = some row ∧
          row.status = "cancelled") ∨
        (∃ row, st.appts.find? (fun a => a.id == i) = some row ∧
          ¬ row.status = "cancelled" ∧
          st' = { st with appts := cancel_update st i })) := by
  unfold cancel_appointment at h
  cases hf : st.appts.find? (fun a => a.id == i) with
  | none => rw [hf] at h; cases h
  | some row =>
    rw [hf] at h
    dsimp only at h
    by_cases hs : row.status = "cancelled"
    · rw [if_pos (by simpa using hs)] at h
      injection h with h'
      injection h' with h1 h2
      exact ⟨h1.symm, Or.inl ⟨h2.symm, row, rfl, hs⟩⟩
    · rw [if_neg (by simpa using hs)] at h
      injection h with h'
      injection h' with h1 h2
      exact ⟨h1.symm, Or.inr ⟨row, rfl, hs, h2.symm⟩⟩

theorem count_booked_slot_snoc (svcs : List Service) (l : List Appt) (n : Nat)
    (a : Appt) (sid : Nat) (d t : String) :
    count_booked_slot ⟨svcs, l ++ [a], n⟩ sid d t =
      count_booked_slot ⟨svcs, l, n⟩ sid d t +
        (if isBookedSlot sid d t a then 1 else 0) := by
  simp only [count_booked_slot, List.filter_append, List.length_append]
  cases h : isBookedSlot sid d t a <;> simp [h, List.filter_cons]

theorem count_booked_for_day_snoc (svcs : List Service) (l : List Appt) (n : Nat)
    (a : Appt) (sid : Nat) (d : String) :
    count_booked_for_day ⟨svcs, l ++ [a], n⟩ sid d =
      count_booked_for_day ⟨svcs, l, n⟩ sid d +
        (if isBookedFor sid d a then 1 else 0) := by
  simp only [count_booked_for_day, List.filter_append, List.length_append]
  cases h : isBookedFor sid d a <;> simp [h, List.filter_cons]

theorem filter_length_map_le (g : Appt → Appt) (q : Appt → Bool)
    (hg : ∀ a, q (g a) = true → q a = true) :
    ∀ l : List Appt, ((l.map g).filter q).length ≤ (l.filter q).length := by
  intro l
  induction l with
  | nil => simp
  | cons a l ih =>
    rw [List.map_cons, List.filter_cons, List.filter_cons]
    cases hqa : q (g a) with
    | false =>
      cases hqb : q a
      · simpa [hqa, hqb] using ih
      · simp only [hqa, hqb, Bool.false_eq_true, if_false, if_true, List.length_cons]
        omega
    | true =>
      rw [hg a hqa]
      simp only [if_true, List.length_cons]
      omega

theorem create_conflict_error (today : Date) (now : String) (st : DB)
    (p : AppointmentCreate)
    (hda : is_date_allowed today p.appt_date = .ok true)
    (hsv : ∃ s, get_service st p.service_id = .ok s)
    (hts : p.appt_time ∈ ALL_SLOTS)
    (hcap : count_booked_for_day st p.service_id p.appt_date < DAILY_CAPACITY)
    (hcf : 0 < count_booked_slot st p.service_id p.appt_date p.appt_time) :
    create_appointment today now st p =
      .error ⟨409, "This time slot is already booked"⟩ := by
  obtain ⟨s, hs⟩ := hsv
  unfold create_appointment
  rw [hda, hs]
  dsimp only
  rw [if_neg (not_not_intro hts), if_neg (by omega), if_pos hcf]

theorem create_day_full_error (today : Date) (now : String) (st : DB)
    (p : AppointmentCreate)
    (hda : is_date_allowed today p.appt_date = .ok true)
    (hsv : ∃ s, get_service st p.service_id = .ok s)
    (hts : p.appt_time ∈ ALL_SLOTS)
    (hcap : DAILY_CAPACITY ≤ count_booked_for_day st p.service_id p.appt_date) :
    create_appointment today now st p =
      .error ⟨409, "This day is FULL for the selected service"⟩ := by
  obtain ⟨s, hs⟩ := hsv
  unfold create_appointment
  rw [hda, hs]
  dsimp only
  rw [if_neg (not_not_intro hts), if_pos hcap]

theorem cancelled_ne_booked : ("cancelled" : String) ≠ "booked" := by decide

theorem cancel_count_slot_le (st : DB) (i : Nat) (sid : Nat) (d t : String) :
    count_booked_slot { st with appts := cancel_update st i } sid d t ≤
      count_booked_slot st sid d t := by
  simp only [count_booked_slot, cancel_update]
  apply filter_length_map_le
  intro a hq
  by_cases hid : (a.id == i) = true
  · rw [if_pos hid] at hq
    simp [isBookedSlot, cancelled_ne_booked] at hq
  · rwa [if_neg hid] at hq

theorem cancel_count_day_le (st : DB) (i : Nat) (sid : Nat) (d : String) :
    count_booked_for_day { st with appts := cancel_update st i } sid d ≤
      count_booked_for_day st sid d := by
  simp only [count_booked_for_day, cancel_update]
  apply filter_length_map_le
  intro a hq
  by_cases hid : (a.id == i) = true
  · rw [if_pos hid] at hq
    simp [isBookedFor, cancelled_ne_booked] at hq
  · rwa [if_neg hid] at hq

/-- Claim C1: at most one `booked` appointment per (service, date, time):
the double-booking check makes `create_appointment` fail with the 409
slot-taken error whenever a booked appointment already occupies exactly
that (service, date, time) and the request reaches that check (valid date,
service, slot, day not full); and the at-most-one-booked invariant for any
(service, date, time) triple is preserved by every successful create and
cancel. -/
theorem c1_no_double_booking (today : Date) (now : String) (st : DB)
    (p : AppointmentCreate) (sid : Nat) (d t : String) :
    (∀ out st', create_appointment today now st p = .ok (out, st') →
      count_booked_slot st sid d t ≤ 1 → count_booked_slot st' sid d t ≤ 1) ∧
    (∀ i r st', cancel_appointment st i = .ok (r, st') →
      count_booked_slot st sid d t ≤ 1 → count_booked_slot st' sid d t ≤ 1) ∧
    (0 < count_booked_slot st p.service_id p.appt_date p.appt_time →
      is_date_allowed today p.appt_date = .ok true →
      (∃ s, get_service st p.service_id = .ok s) →
      p.appt_time ∈ ALL_SLOTS →
      count_booked_for_day st p.service_id p.appt_date < DAILY_CAPACITY →
      create_appointment today now st p =
        .error ⟨409, "This time slot is already booked"⟩) := by
  refine ⟨?_, ?_, ?_⟩
  · intro out st' h hle
    obtain ⟨svcs, appts, nid⟩ := st
    obtain ⟨s, _, _, hst', _, _, _, hzero⟩ := create_ok_elim h
    subst hst'
    rw [count_booked_slot_snoc]
    by_cases hm : isBookedSlot sid d t (new_appt ⟨svcs, appts, nid⟩ p now) = true
    · have heq : (p.service_id = sid ∧ p.appt_date = d) ∧ p.appt_time = t := by
        simpa [isBookedSlot, new_appt] using hm
      obtain ⟨⟨e1, e2⟩, e3⟩ := heq
      subst e1; subst e2; subst e3
      rw [if_pos hm]
      simp only [count_booked_slot] at hzero ⊢
      omega
    · rw [if_neg hm]
      simpa using hle
  · intro i r st' h hle
    obtain ⟨hr, hcase⟩ := cancel_ok_elim h
    rcases hcase with ⟨hst', _⟩ | ⟨row, _, _, hst'⟩
    · subst hst'; exact hle
    · subst hst'
      exact le_trans (cancel_count_slot_le st i sid d t) hle
  · intro hcf hda hsv hts hcap
    exact create_conflict_error today now st p hda hsv hts hcap hcf

def one_booked_db : DB :=
  ⟨seeded_services,
    [⟨1, "Jane Doe", "0501234567", "General", 1, "2026-10-20", "09:00", "booked",
      "2026-10-12T08:00:00"⟩], 2⟩

def conflict_payload : AppointmentCreate :=
  ⟨"John Smith", "0507654321", "General", 1, "2026-10-20", "09:00"⟩

/-- Claim C1 witness: in a state holding one booked appointment at
(service 1, 2026-10-20, 09:00), a second create for exactly that triple
fails with the 409 slot-taken error. -/
theorem c1_no_double_booking_witness :
    create_appointment ⟨2026, 10, 12⟩ "2026-10-12T09:00:00" one_booked_db
      conflict_payload = .error ⟨409, "This time slot is already booked"⟩ :=
  (c1_no_double_booking ⟨2026, 10, 12⟩ "2026-10-12T09:00:00" one_booked_db
      conflict_payload 1 "2026-10-20" "09:00").2.2
    (by decide) (by decide) ⟨⟨1, "General Consultation", 30⟩, by decide⟩
    (by decide) (by decide)

def full_day_db : DB :=
  ⟨seeded_services,
    ALL_SLOTS.map (fun slot =>
      ⟨1, "Jane Doe", "0501234567", "General", 1, "2026-10-20", slot, "booked",
        "2026-10-12T08:00:00"⟩),
    17⟩

def invalid_time_payload : AppointmentCreate :=
  ⟨"John Smith", "0507654321", "General", 1, "2026-10-20", "10:07"⟩

/-- Claim C3 counterexample: with the day already holding exactly
`DAILY_CAPACITY` booked appointments for (service 1, 2026-10-20), a
further create for that service and date with requested time "10:07"
does NOT fail with the 409 day-full error: the slot-validity check comes
first and it fails with the 400 invalid-time-slot error, refuting
"fails with DayFull regardless of requested time". -/
theorem c3_capacity_counterexample :
    count_booked_for_day full_day_db 1 "2026-10-20" = DAILY_CAPACITY ∧
    create_appointment ⟨2026, 10, 12⟩ "2026-10-12T09:00:00" full_day_db
        invalid_time_payload = .error ⟨400, "Invalid time slot"⟩ ∧
    create_appointment ⟨2026, 10, 12⟩ "2026-10-12T09:00:00" full_day_db
        invalid_time_payload ≠
      .error ⟨409, "This day is FULL for the selected service"⟩ := by
  refine ⟨by decide, by decide, by decide⟩

/-- Claim C3 (amended): the per-(service, date) booked count never exceeds
`DAILY_CAPACITY` (it is preserved by every successful create and cancel),
and once the count has reached `DAILY_CAPACITY`, any further create for
that (service, date) fails with the 409 day-full error regardless of the
requested time, provided the requested time is a member of the slot
catalog (a time outside the catalog fails earlier with the 400
invalid-time-slot error). -/
theorem c3_daily_capacity (today : Date) (now : String) (st : DB)
    (p : AppointmentCreate) (sid : Nat) (d : String) :
    (∀ out st', create_appointment today now st p = .ok (out, st') →
      count_booked_for_day st sid d ≤ DAILY_CAPACITY →
      count_booked_for_day st' sid d ≤ DAILY_CAPACITY) ∧
    (∀ i r st', cancel_appointment st i = .ok (r, st') →
      count_booked_for_day st sid d ≤ DAILY_CAPACITY →
      count_booked_for_day st' sid d ≤ DAILY_CAPACITY) ∧
    (DAILY_CAPACITY ≤ count_booked_for_day st p.service_id p.appt_date →
      is_date_allowed today p.appt_date = .ok true →
      (∃ s, get_service st p.service_id = .ok s) →
      p.appt_time ∈ ALL_SLOTS →
      create_appointment today now st p =
        .error ⟨409, "This day is FULL for the selected service"⟩) := by
  refine ⟨?_, ?_, ?_⟩
  · intro out st' h hle
    obtain ⟨svcs, appts, nid⟩ := st
    obtain ⟨s, _, _, hst', _, _, hcap, _⟩ := create_ok_elim h
    subst hst'
    rw [count_booked_for_day_snoc]
    by_cases hm : isBookedFor sid d (new_appt ⟨svcs, appts, nid⟩ p now) = true
    · have heq : p.service_id = sid ∧ p.appt_date = d := by
        simpa [isBookedFor, new_appt] using hm
      obtain ⟨e1, e2⟩ := heq
      subst e1; subst e2
      rw [if_pos hm]
      simp only [count_booked_for_day] at hcap ⊢
      omega
    · rw [if_neg hm]
      simpa using hle
  · intro i r st' h hle
    obtain ⟨hr, hcase⟩ := cancel_ok_elim h
    rcases hcase with ⟨hst', _⟩ | ⟨row, _, _, hst'⟩
    · subst hst'; exact hle
    · subst hst'
      exact le_trans (cancel_count_day_le st i sid d) hle
  · intro hcap hda hsv hts
    exact create_day_full_error today now st p hda hsv hts hcap

def full_day_payload : AppointmentCreate :=
  ⟨"John Smith", "0507654321", "General", 1, "2026-10-20", "11:00"⟩

/-- Claim C3 witness: in the state with a full day for (service 1,
2026-10-20), a further create with the valid slot 11:00 fails with the
409 day-full error. -/
theorem c3_daily_capacity_witness :
    create_appointment ⟨2026, 10, 12⟩ "2026-10-12T09:00:00" full_day_db
      full_day_payload = .error ⟨409, "This day is FULL for the selected service"⟩ :=
  (c3_daily_capacity ⟨2026, 10, 12⟩ "2026-10-12T09:00:00" full_day_db
      full_day_payload 1 "2026-10-20").2.2
    (by decide) (by decide) ⟨⟨1, "General Consultation", 30⟩, by decide⟩ (by decide)

theorem cancel_find_none {st : DB} {i : Nat}
    (hf : st.appts.find? (fun a => a.id == i) = none) :
    cancel_appointment st i = .error ⟨404, "Appointment not found"⟩ := by
  unfold cancel_appointment
  rw [hf]

theorem cancel_already {st : DB} {i : Nat} {row : Appt}
    (hf : st.appts.find? (fun a => a.id == i) = some row)
    (hs : row.status = "cancelled") :
    cancel_appointment st i = .ok (true, st) := by
  unfold cancel_appointment
  rw [hf]
  dsimp only
  rw [if_pos (by simp [hs])]

theorem cancel_update_find {st : DB} {i : Nat} {row : Appt}
    (hf : st.appts.find? (fun a => a.id == i) = some row) :
    (cancel_update st i).find? (fun a => a.id == i) =
      some { row with status := "cancelled" } := by
  have hq : ((fun a : Appt => a.id == i) ∘
      (fun a : Appt => if a.id == i then { a with status := "cancelled" } else a)) =
      (fun a : Appt => a.id == i) := by
    funext a
    by_cases hid : (a.id == i) = true
    · simp only [Function.comp]
      rw [if_pos hid]
    · simp only [Function.comp]
      rw [if_neg hid]
  have hrow := List.find?_some hf
  rw [cancel_update, List.find?_map, hq, hf]
  simp only [Option.map_some']
  rw [if_pos hrow]

/-- Claim C4: `cancel` fails with the 404 not-found error exactly when no
appointment with the requested identifier exists; cancelling an
already-cancelled appointment returns ok and performs no state change;
any successful cancel returns ok, leaves every lookup of that identifier
with status "cancelled", and a second cancel returns ok again with no
further state change (cancelled is terminal). -/
theorem c4_cancel_idempotent (st : DB) (i : Nat) :
    ((∃ e, cancel_appointment st i = .error e) ↔ ∀ a ∈ st.appts, a.id ≠ i) ∧
    (∀ e, cancel_appointment st i = .error e → e = ⟨404, "Appointment not found"⟩) ∧
    (∀ row, st.appts.find? (fun a => a.id == i) = some row →
      row.status = "cancelled" → cancel_appointment st i = .ok (true, st)) ∧
    (∀ r st', cancel_appointment st i = .ok (r, st') →
      r = true ∧
      (∃ row, st'.appts.find? (fun a => a.id == i) = some row ∧
        row.status = "cancelled") ∧
      cancel_appointment st' i = .ok (true, st')) := by
  refine ⟨?_, ?_, ?_, ?_⟩
  · constructor
    · rintro ⟨e, he⟩ a ha hai
      cases hf : st.appts.find? (fun a => a.id == i) with
      | none =>
        have := List.find?_eq_none.mp hf a ha
        simp [hai] at this
      | some row =>
        unfold cancel_appointment at he
        rw [hf] at he
        dsimp only at he
        by_cases hs : (row.status == "cancelled") = true
        · rw [if_pos hs] at he; cases he
        · rw [if_neg hs] at he; cases he
    · intro hall
      have hf : st.appts.find? (fun a => a.id == i) = none := by
        apply List.find?_eq_none.mpr
        intro a ha
        simpa using hall a ha
      exact ⟨_, cancel_find_none hf⟩
  · intro e he
    cases hf : st.appts.find? (fun a => a.id == i) with
    | none =>
      rw [cancel_find_none hf] at he
      injection he with h
      exact h.symm
    | some row =>
      unfold cancel_appointment at he
      rw [hf] at he
      dsimp only at he
      by_cases hs : (row.status == "cancelled") = true
      · rw [if_pos hs] at he; cases he
      · rw [if_neg hs] at he; cases he
  · intro row hf hs
    exact cancel_already hf hs
  · intro r st' h
    obtain ⟨hr, hcase⟩ := cancel_ok_elim h
    subst hr
    rcases hcase with ⟨hst', row, hf, hs⟩ | ⟨row, hf, hs, hst'⟩
    · subst hst'
      exact ⟨rfl, ⟨row, hf, hs⟩, cancel_already hf hs⟩
    · subst hst'
      have hfind : ({ st with appts := cancel_update st i } : DB).appts.find?
          (fun a => a.id == i) = some { row with status := "cancelled" } :=
        cancel_update_find hf
      exact ⟨rfl, ⟨{ row with status := "cancelled" }, hfind, rfl⟩,
        cancel_already hfind rfl⟩

def cancelled_db : DB :=
  ⟨seeded_services,
    [⟨5, "Jane Doe", "0501234567", "General", 1, "2026-10-20", "09:00",
      "cancelled", "2026-10-12T08:00:00"⟩], 6⟩

/-- Claim C4 witness: cancelling the already-cancelled appointment 5
returns ok and leaves the state unchanged. -/
theorem c4_cancel_idempotent_witness :
    cancel_appointment cancelled_db 5 = .ok (true, cancelled_db) :=
  (c4_cancel_idempotent cancelled_db 5).2.2.1
    ⟨5, "Jane Doe", "0501234567", "General", 1, "2026-10-20", "09:00",
      "cancelled", "2026-10-12T08:00:00"⟩ (by decide) (by decide)

theorem get_service_ok {st : DB} {sid : Nat} {s : Service}
    (h : get_service st sid = .ok s) :
    st.services.find? (fun sv => sv.id == sid) = some s := by
  unfold get_service at h
  cases hf : st.services.find? (fun sv => sv.id == sid) with
  | none => rw [hf] at h; cases h
  | some s0 =>
    rw [hf] at h
    injection h with h'
    rw [h']

/-- Claim C8: an appointment successfully created with the given fields is
found by list-by-phone (queried with the same phone string) with identical
trimmed patient name, trimmed phone, situation type, service, date, time
and status "booked"; and every list-by-phone result is ordered newest
first (date descending, then time descending). -/
theorem c8_round_trip (today : Date) (now : String) (st : DB)
    (p : AppointmentCreate) (out : AppointmentOut) (st' : DB)
    (h : create_appointment today now st p = .ok (out, st')) :
    (∃ r ∈ list_appointments st' p.phone,
      r.patient_name = strip p.patient_name ∧ r.phone = strip p.phone ∧
      r.situation_type = p.situation_type ∧ r.service_id = p.service_id ∧
      r.appt_date = p.appt_date ∧ r.appt_time = p.appt_time ∧
      r.status = "booked") ∧
    (∀ (st₀ : DB) (ph : String),
      List.Pairwise ListedBefore (list_appointments st₀ ph)) := by
  obtain ⟨s, hs, hout, hst', _, _, _, _⟩ := create_ok_elim h
  constructor
  · refine ⟨mk_out (new_appt st p now) s.name, ?_, rfl, rfl, rfl, rfl, rfl, rfl, rfl⟩
    simp only [list_appointments]
    rw [(List.perm_insertionSort ListedBefore _).mem_iff]
    apply List.mem_filterMap.mpr
    refine ⟨new_appt st p now, ?_, ?_⟩
    · apply List.mem_filter.mpr
      constructor
      · rw [hst']
        exact List.mem_append_right _ (List.mem_singleton.mpr rfl)
      · exact beq_self_eq_true _
    · have hsv : st'.services = st.services := by rw [hst']
      rw [hsv]
      have hproj : (new_appt st p now).service_id = p.service_id := rfl
      rw [hproj, get_service_ok hs]
      rfl
  · intro st₀ ph
    simp only [list_appointments]
    exact List.sorted_insertionSort ListedBefore _

def rt_payload : AppointmentCreate :=
  ⟨" Jane Doe ", " 0501234567 ", "General", 1, "2026-10-20", "09:00"⟩

def rt_result : AppointmentOut × DB :=
  match create_appointment ⟨2026, 10, 12⟩ "2026-10-12T09:00:00" initDB rt_payload with
  | .ok res => res
  | .error _ => (⟨0, "", "", "", 0, "", "", "", "", ""⟩, initDB)

/-- Claim C8 witness: the appointment created from a payload with
untrimmed name and phone is found by list-by-phone on the same phone
string, with trimmed fields and status "booked". -/
theorem c8_round_trip_witness :
    ∃ r ∈ list_appointments rt_result.2 rt_payload.phone,
      r.patient_name = strip rt_payload.patient_name ∧
      r.phone = strip rt_payload.phone ∧
      r.situation_type = rt_payload.situation_type ∧
      r.service_id = rt_payload.service_id ∧
      r.appt_date = rt_payload.appt_date ∧
      r.appt_time = rt_payload.appt_time ∧
      r.status = "booked" :=
  (c8_round_trip ⟨2026, 10, 12⟩ "2026-10-12T09:00:00" initDB rt_payload
      rt_result.1 rt_result.2 (by rfl)).1

/-- The unsorted SELECT-with-JOIN row list of `list_appointments`. -/
def listed_rows (svcs : List Service) (l : List Appt) (ph : String) : List AppointmentOut :=
  (l.filter (fun a => a.phone == ph)).filterMap
    (fun a => (svcs.find? (fun s => s.id == a.service_id)).map (fun s => mk_out a s.name))

theorem list_appointments_eq (st : DB) (phone : String) :
    list_appointments st phone =
      List.insertionSort ListedBefore (listed_rows st.services st.appts (strip phone)) := rfl

theorem listed_rows_map (svcs : List Service) (ph : String) (g : Appt → Appt)
    (hph : ∀ a, (g a).phone = a.phone)
    (hsid : ∀ a, (g a).service_id = a.service_id)
    (hid : ∀ a, (g a).id = a.id) :
    ∀ l : List Appt,
      (listed_rows svcs (l.map g) ph).length = (listed_rows svcs l ph).length ∧
      (∀ r ∈ listed_rows svcs l ph,
        ∃ r' ∈ listed_rows svcs (l.map g) ph, r'.id = r.id) := by
  intro l
  induction l with
  | nil => simp [listed_rows]
  | cons a l ih =>
    simp only [listed_rows, List.map_cons, List.filter_cons] at ih ⊢
    rw [hph a]
    by_cases hpa : (a.phone == ph) = true
    case neg =>
      simp only [if_neg hpa]
      exact ih
    case pos =>
      simp only [if_pos hpa, List.filterMap_cons]
      rw [hsid a]
      cases hfa : svcs.find? (fun s => s.id == a.service_id) with
      | none =>
        simp only [Option.map_none']
        exact ih
      | some s =>
        simp only [Option.map_some', List.length_cons]
        refine ⟨by rw [ih.1], ?_⟩
        intro r hr
        rcases List.mem_cons.mp hr with hr | hr
        · exact ⟨mk_out (g a) s.name, List.mem_cons_self _ _, by rw [hr]; simp [mk_out, hid a]⟩
        · obtain ⟨r', hr', hrid⟩ := ih.2 r hr
          exact ⟨r', List.mem_cons_of_mem _ hr', hrid⟩

/-- Claim C10: list-by-phone filters only on the trimmed phone string and
applies no status filter: every stored appointment with matching phone
(and resolvable service) appears in the listing with its stored status —
cancelled ones included — and a successful cancel changes neither the
number of listed rows nor the set of listed appointment ids for any phone
query. -/
theorem c10_no_status_filter (st : DB) (ph : String) :
    (∀ a ∈ st.appts, a.phone = strip ph →
      (∃ s, st.services.find? (fun sv => sv.id == a.service_id) = some s) →
      ∃ r ∈ list_appointments st ph, r.id = a.id ∧ r.status = a.status) ∧
    (∀ i r st', cancel_appointment st i = .ok (r, st') →
      (list_appointments st' ph).length = (list_appointments st ph).length ∧
      (∀ r0 ∈ list_appointments st ph,
        ∃ r' ∈ list_appointments st' ph, r'.id = r0.id)) := by
  constructor
  · intro a ha hph ⟨s, hsv⟩
    refine ⟨mk_out a s.name, ?_, rfl, rfl⟩
    rw [list_appointments_eq]
    rw [(List.perm_insertionSort ListedBefore _).mem_iff]
    apply List.mem_filterMap.mpr
    refine ⟨a, ?_, ?_⟩
    · exact List.mem_filter.mpr ⟨ha, by rw [hph]; exact beq_self_eq_true _⟩
    · rw [hsv]
      rfl
  · intro i r st' h
    obtain ⟨hr, hcase⟩ := cancel_ok_elim h
    rcases hcase with ⟨hst', _⟩ | ⟨row, hf, hs, hst'⟩
    · subst hst'
      exact ⟨rfl, fun r0 hr0 => ⟨r0, hr0, rfl⟩⟩
    · subst hst'
      have hg1 : ∀ a : Appt,
          ((if a.id == i then { a with status := "cancelled" } else a) : Appt).phone =
            a.phone := by
        intro a
        by_cases hid : (a.id == i) = true
        · rw [if_pos hid]
        · rw [if_neg hid]
      have hg2 : ∀ a : Appt,
          ((if a.id == i then { a with status := "cancelled" } else a) : Appt).service_id =
            a.service_id := by
        intro a
        by_cases hid : (a.id == i) = true
        · rw [if_pos hid]
        · rw [if_neg hid]
      have hg3 : ∀ a : Appt,
          ((if a.id == i then { a with status := "cancelled" } else a) : Appt).id = a.id := by
        intro a
        by_cases hid : (a.id == i) = true
        · rw [if_pos hid]
        · rw [if_neg hid]
      have hbase := listed_rows_map st.services (strip ph) _ hg1 hg2 hg3 st.appts
      constructor
      · rw [list_appointments_eq, list_appointments_eq,
          (List.perm_insertionSort ListedBefore _).length_eq,
          (List.perm_insertionSort ListedBefore _).length_eq]
        exact hbase.1
      · intro r0 hr0
        rw [list_appointments_eq, (List.perm_insertionSort ListedBefore _).mem_iff] at hr0
        obtain ⟨r', hr', hrid⟩ := hbase.2 r0 hr0
        refine ⟨r', ?_, hrid⟩
        rw [list_appointments_eq, (List.perm_insertionSort ListedBefore _).mem_iff]
        exact hr'

def mixed_db : DB :=
  ⟨seeded_services,
    [⟨1, "Jane Doe", "0501234567", "General", 1, "2026-10-20", "09:00", "cancelled",
      "2026-10-12T08:00:00"⟩,
     ⟨2, "Jane Doe", "0501234567", "General", 1, "2026-10-21", "10:00", "booked",
      "2026-10-12T08:30:00"⟩], 3⟩

/-- Claim C10 witness: in a state holding a cancelled appointment (id 1)
for phone 0501234567, list-by-phone still returns a record with id 1 and
status "cancelled". -/
theorem c10_no_status_filter_witness :
    ∃ r ∈ list_appointments mixed_db "0501234567",
      r.id = (1 : Nat) ∧ r.status = "cancelled" := by
  have hmain := (c10_no_status_filter mixed_db "0501234567").1
    ⟨1, "Jane Doe", "0501234567", "General", 1, "2026-10-20", "09:00", "cancelled",
      "2026-10-12T08:00:00"⟩
    (by decide) (by decide) ⟨⟨1, "General Consultation", 30⟩, by decide⟩
  exact hmain

/-- Claim C5: for every day of a month accepted by `calendar_load`, the
reported count is the number of booked appointments of the selected
service on that day (0 for every day when no service is given), the level
is "Low" for count ≤ 5, "Medium" for 6–12 and "High" above, `is_full`
holds exactly when a service is given and the count reaches
`DAILY_CAPACITY`, and `disabled` holds exactly when the day is strictly
before today or the day is full; in particular a day with count 6 gets
level "Medium" and is not full. -/
theorem c5_calendar_load (today : Date) (st : DB) (month : String)
    (sid : Option Nat) (out : CalendarOut)
    (h : calendar_load today st month sid = .ok out) :
    ∃ y m, parseYM month = some (y, m) ∧
      out.days = (month_days y m).map (day_record today st sid) ∧
      ∀ d ∈ month_days y m,
        ((day_record today st sid d).count =
          match sid with
          | none => 0
          | some s => count_booked_for_day st s (dateToStr d)) ∧
        ((day_record today st sid d).level =
          (if (day_record today st sid d).count ≤ 5 then "Low"
            else if (day_record today st sid d).count ≤ 12 then "Medium"
            else "High")) ∧
        ((day_record today st sid d).is_full = true ↔
          (sid.isSome = true ∧ DAILY_CAPACITY ≤ (day_record today st sid d).count)) ∧
        ((day_record today st sid d).disabled = true ↔
          (d < today ∨ (day_record today st sid d).is_full = true)) ∧
        ((day_record today st sid d).count = 6 →
          (day_record today st sid d).level = "Medium" ∧
          (day_record today st sid d).is_full = false) := by
  have hcount : ∀ d : Date,
      (day_record today st sid d).count = day_count st sid (dateToStr d) :=
    fun d => rfl
  have hlevel : ∀ d : Date,
      (day_record today st sid d).level = level ((day_record today st sid d).count) :=
    fun d => rfl
  have hfull : ∀ d : Date,
      (day_record today st sid d).is_full =
        (sid.isSome && decide (DAILY_CAPACITY ≤ (day_record today st sid d).count)) :=
    fun d => rfl
  have hdis : ∀ d : Date,
      (day_record today st sid d).disabled =
        (decide (d < today) || (day_record today st sid d).is_full) :=
    fun d => rfl
  have hprops : ∀ d : Date,
      ((day_record today st sid d).count =
        match sid with
        | none => 0
        | some s => count_booked_for_day st s (dateToStr d)) ∧
      ((day_record today st sid d).level =
        (if (day_record today st sid d).count ≤ 5 then "Low"
          else if (day_record today st sid d).count ≤ 12 then "Medium"
          else "High")) ∧
      ((day_record today st sid d).is_full = true ↔
        (sid.isSome = true ∧ DAILY_CAPACITY ≤ (day_record today st sid d).count)) ∧
      ((day_record today st sid d).disabled = true ↔
        (d < today ∨ (day_record today st sid d).is_full = true)) ∧
      ((day_record today st sid d).count = 6 →
        (day_record today st sid d).level = "Medium" ∧
        (day_record today st sid d).is_full = false) := by
    intro d
    refine ⟨?_, ?_, ?_, ?_, ?_⟩
    · rw [hcount]
      cases sid <;> rfl
    · rw [hlevel, level]
    · rw [hfull]
      simp [Bool.and_eq_true, decide_eq_true_eq]
    · rw [hdis]
      simp [Bool.or_eq_true, decide_eq_true_eq]
    · intro h6
      constructor
      · rw [hlevel, h6, level]
        decide
      · rw [hfull, h6]
        have hd : decide (DAILY_CAPACITY ≤ 6) = false := by decide
        rw [hd, Bool.and_false]
  unfold calendar_load at h
  cases hma : is_month_allowed today month with
  | error e => rw [hma] at h; cases h
  | ok b =>
    rw [hma] at h
    cases b with
    | false => cases h
    | true =>
      cases hym : parseYM month with
      | none => rw [hym] at h; cases h
      | some ym =>
        obtain ⟨y, m⟩ := ym
        rw [hym] at h
        dsimp only at h
        cases sid with
        | none =>
          injection h with h'
          refine ⟨y, m, rfl, ?_, fun d _ => hprops d⟩
          rw [← h']
        | some s =>
          dsimp only at h
          cases hgs : get_service st s with
          | error e => rw [hgs] at h; cases h
          | ok sv =>
            rw [hgs] at h
            dsimp only at h
            injection h with h'
            refine ⟨y, m, rfl, ?_, fun d _ => hprops d⟩
            rw [← h']

def six_db : DB :=
  ⟨seeded_services,
    (List.range 6).map (fun k =>
      ⟨k + 1, "Jane Doe", "0501234567", "General", 1, "2026-11-10",
        fmtHM (9 * 60 + 30 * k), "booked", "2026-10-12T08:00:00"⟩),
    7⟩

def c5_out : CalendarOut :=
  match calendar_load ⟨2026, 10, 12⟩ six_db "2026-11" (some 1) with
  | .ok o => o
  | .error _ => default

/-- Claim C5 witness: the calendar for 2026-11 over a state with six
bookings on 2026-11-10 (service 1) satisfies the per-day properties; in
particular its day with count 6 is "Medium" and not full. -/
theorem c5_calendar_load_witness :
    ∃ y m, parseYM "2026-11" = some (y, m) ∧
      c5_out.days = (month_days y m).map (day_record ⟨2026, 10, 12⟩ six_db (some 1)) ∧
      ∀ d ∈ month_days y m,
        ((day_record ⟨2026, 10, 12⟩ six_db (some 1) d).count =
          match some 1 with
          | none => 0
          | some s => count_booked_for_day six_db s (dateToStr d)) ∧
        ((day_record ⟨2026, 10, 12⟩ six_db (some 1) d).level =
          (if (day_record ⟨2026, 10, 12⟩ six_db (some 1) d).count ≤ 5 then "Low"
            else if (day_record ⟨2026, 10, 12⟩ six_db (some 1) d).count ≤ 12 then "Medium"
            else "High")) ∧
        ((day_record ⟨2026, 10, 12⟩ six_db (some 1) d).is_full = true ↔
          ((some 1 : Option Nat).isSome = true ∧
            DAILY_CAPACITY ≤ (day_record ⟨2026, 10, 12⟩ six_db (some 1) d).count)) ∧
        ((day_record ⟨2026, 10, 12⟩ six_db (some 1) d).disabled = true ↔
          (d < ⟨2026, 10, 12⟩ ∨
            (day_record ⟨2026, 10, 12⟩ six_db (some 1) d).is_full = true)) ∧
        ((day_record ⟨2026, 10, 12⟩ six_db (some 1) d).count = 6 →
          (day_record ⟨2026, 10, 12⟩ six_db (some 1) d).level = "Medium" ∧
          (day_record ⟨2026, 10, 12⟩ six_db (some 1) d).is_full = false) :=
  c5_calendar_load ⟨2026, 10, 12⟩ six_db "2026-11" (some 1) c5_out (by rfl)

end SmartCare
